import Mathlib

/-!
Verification of the `trading_websocket` streaming client of the dnse openapi
SDK: a shallow embedding of the Python sources
(`websocket/trading_websocket/client.py`, `models.py`, `encoding.py`,
`websocket-marketdata/trading_websocket/connection.py`, `auth.py`)
together with theorems settling the spec's claims about them.
-/

namespace TradingWS

/-! ## Python dynamic values

Wire frames are decoded into generic string-keyed maps holding dynamically
typed Python values.  `vdecimal src` models `Decimal(str(src))`: the exact
decimal obtained from the printed form of `src` (we keep the source value,
since every property we state only needs equality of sources and the
decimal/float distinction). -/

inductive PyVal where
  | vnone
  | vint (n : Int)
  | vfloat (q : ℚ)
  | vstr (s : String)
  | vlist (xs : List PyVal)
  | vdict (xs : List (String × PyVal))
  | vdecimal (src : PyVal)

/-- Python truthiness.  `vdecimal` never occurs in a wire map, so its
truthiness is only needed for totality; we delegate to the source value. -/
def truthy : PyVal → Bool
  | .vnone => false
  | .vint n => n != 0
  | .vfloat q => q != 0
  | .vstr s => s != ""
  | .vlist xs => !xs.isEmpty
  | .vdict xs => !xs.isEmpty
  | .vdecimal src => truthy src

/-- Decoded frames: Python dicts as association lists (first binding wins,
as dict keys are unique). -/
abbrev PyDict := List (String × PyVal)

/-- `data.get(k)` with explicit default (`dict.get` never raises). -/
def pyGetD (d : PyDict) (k : String) (dflt : PyVal) : PyVal :=
  match d.find? (fun p => p.1 == k) with
  | some p => p.2
  | none => dflt

/-- `data.get(k)`: absent keys give `None`. -/
def pyGet (d : PyDict) (k : String) : PyVal :=
  pyGetD d k .vnone

/-- Python `a or b`: `a` if truthy, else `b`. -/
def pyOr (a b : PyVal) : PyVal :=
  if truthy a then a else b

/-- Python runtime errors raised by the decoders. -/
inductive PyErr where
  | keyError (k : String)
  | typeError
  | invalidOperation
  deriving DecidableEq, Repr

/-- `data[k]`: raises `KeyError` when the key is absent. -/
def pyIndex (d : PyDict) (k : String) : Except PyErr PyVal :=
  match d.find? (fun p => p.1 == k) with
  | some p => .ok p.2
  | none => .error (.keyError k)

/-! ## Transport Connection (`connection.py`, class `WebSocketConnection`)

State carried across calls: `self._retry_count` and `self._is_connected`
(`self._ws` is tracked as a Boolean presence flag `hasWs`). -/

structure WSConn where
  autoReconnect : Bool
  maxRetries : Nat
  retryCount : Nat
  isConnectedFlag : Bool
  hasWs : Bool
  deriving DecidableEq, Repr

/-- `is_connected` property: `self._is_connected and self._ws is not None`. -/
def WSConn.is_connected (c : WSConn) : Bool :=
  c.isConnectedFlag && c.hasWs

/-- Observable steps of one `connect()` call: a socket-open attempt, or an
`asyncio.sleep(delay)` between retries. -/
inductive ConnEvent where
  | attemptOpen (idx : Nat)
  | sleep (delay : Nat)
  deriving DecidableEq, Repr

/-- Backoff computed in `connect()` after the failure that set
`_retry_count` to `rc`: `min(2 ** (self._retry_count - 1), 60)`. -/
def backoffDelay (rc : Nat) : Nat :=
  min (2 ^ (rc - 1)) 60

/-- Error message of `ConnectionError` raised when retries are exhausted:
`f"Failed to connect after {max_retries} attempts: {e}"`. -/
def connectFailMsg (maxRetries : Nat) (cause : String) : String :=
  s!"Failed to connect after {maxRetries} attempts: {cause}"

/-- The `while self._retry_count < self.max_retries` loop of `connect()`.
`env n` is the outcome of the `n`-th socket-open attempt of this call
(`none` = the `websockets.connect` await succeeds, `some e` = it raises
with cause `e`).  Returns the connection state after the call, the trace of
events, and the call's result (`.error` models the raised
`ConnectionError`; `.ok` is the `None` return, reached both on success and
when the loop body never runs). -/
def connectLoop (c : WSConn) (env : Nat → Option String) (idx : Nat)
    (trace : List ConnEvent) : WSConn × List ConnEvent × Except String Unit :=
  if c.retryCount < c.maxRetries then
    match env idx with
    | none =>
        -- success: `self._is_connected = True; self._retry_count = 0; return`
        ({ c with isConnectedFlag := true, hasWs := true, retryCount := 0 },
         trace ++ [.attemptOpen idx], .ok ())
    | some e =>
        let c' := { c with retryCount := c.retryCount + 1 }
        if c'.retryCount ≥ c.maxRetries then
          (c', trace ++ [.attemptOpen idx],
           .error (connectFailMsg c.maxRetries e))
        else
          connectLoop c' env (idx + 1)
            (trace ++ [.attemptOpen idx, .sleep (backoffDelay c'.retryCount)])
  else
    (c, trace, .ok ())
termination_by c.maxRetries - c.retryCount
decreasing_by
  simp only [WSConn.mk.injEq] at *
  omega

/-- `connect()` entry point. -/
def WSConn.connect (c : WSConn) (env : Nat → Option String) :
    WSConn × List ConnEvent × Except String Unit :=
  connectLoop c env 0 []

/-- The sleeps of a trace, i.e. the backoff delays in order. -/
def traceDelays (t : List ConnEvent) : List Nat :=
  t.filterMap fun e =>
    match e with
    | .sleep d => some d
    | _ => none

/-- The open attempts of a trace. -/
def traceAttempts (t : List ConnEvent) : List Nat :=
  t.filterMap fun e =>
    match e with
    | .attemptOpen i => some i
    | _ => none

/-- A fresh connection as built by `WebSocketConnection.__init__`. -/
def WSConn.fresh (autoReconnect : Bool) (maxRetries : Nat) : WSConn :=
  { autoReconnect := autoReconnect, maxRetries := maxRetries,
    retryCount := 0, isConnectedFlag := false, hasWs := false }

/-! ### `receive()` -/

/-- What the underlying `await self._ws.recv()` does on one call. -/
inductive NetRecv where
  | frame (payload : String)
  | closed (code : Nat)
  deriving DecidableEq, Repr

/-- Result of one `receive()` call: a returned frame, a raised
`ConnectionError(msg)`, or a raised `ConnectionClosed(msg, recoverable)`. -/
inductive RecvResult where
  | ok (payload : String)
  | connError (msg : String)
  | connClosed (msg : String) (recoverable : Bool)
  deriving DecidableEq, Repr

/-- Whether a `receive()` result reports a closed condition, i.e. is a
`ConnectionClosed` exception. -/
def RecvResult.isClosedReport : RecvResult → Bool
  | .connClosed _ _ => true
  | _ => false

/-- `receive()`: guard `if not self._ws or not self._is_connected: raise
ConnectionError("Not connected")`, then classify the close code when the
underlying recv raises `websockets.exceptions.ConnectionClosed`.  Close
messages are modelled by the code (the Python f-string interpolates the
exception object). -/
def WSConn.receive (c : WSConn) (net : NetRecv) : WSConn × RecvResult :=
  if !c.hasWs || !c.isConnectedFlag then
    (c, .connError "Not connected")
  else
    match net with
    | .frame payload => (c, .ok payload)
    | .closed code =>
        let c' := { c with isConnectedFlag := false }
        if code = 1000 ∨ code = 1001 then
          (c', .connClosed s!"Connection closed normally: {code}" false)
        else if code = 1006 ∨ code = 1011 ∨ code = 1012 then
          if c.autoReconnect then
            (c', .connClosed s!"Connection closed abnormally: {code}" true)
          else
            (c', .connClosed s!"Connection closed abnormally: {code}" false)
        else
          (c', .connClosed s!"Connection closed: {code}" false)

/-! ## Session Manager (`client.py`, class `TradingClient`)

### Subscription registry

`self._subscriptions : Dict[str, {"symbols": ..., "kwargs": ...}]`, modelled
as an association list with unique keys (a Python dict preserves insertion
order; assigning an existing key updates it in place, a new key is
appended). -/

structure SubEntry where
  symbols : List String
  kwargs : PyDict

abbrev Registry := List (String × SubEntry)

/-- First-binding lookup in an association list (`reg[k]` / `k in reg`). -/
def lookupKey {α : Type} (l : List (String × α)) (k : String) : Option α :=
  match l with
  | [] => none
  | (k', v) :: rest => if k' = k then some v else lookupKey rest k

/-- Python dict assignment `d[k] = v`: update the existing binding in place,
else append a new one. -/
def dictSet {α : Type} (l : List (String × α)) (k : String) (v : α) :
    List (String × α) :=
  match l with
  | [] => [(k, v)]
  | (k', v') :: rest =>
      if k' = k then (k, v) :: rest else (k', v') :: dictSet rest k v

/-- Python dict deletion `del d[k]` (keys are unique, so deleting the first
binding is deleting the binding). -/
def dictDel {α : Type} (l : List (String × α)) (k : String) :
    List (String × α) :=
  match l with
  | [] => []
  | (k', v') :: rest =>
      if k' = k then rest else (k', v') :: dictDel rest k

/-- The keys of an association list. -/
def alistKeys {α : Type} (l : List (String × α)) : List String :=
  l.map Prod.fst

/-- The subscribe control frame built by `_subscribe_channel`:
`{"action": "subscribe", "channels": [{"name": channel, "symbols": symbols,
**kwargs}]}`. -/
def subscribeFrame (ch : String) (symbols : List String) (kwargs : PyDict) :
    PyVal :=
  .vdict [("action", .vstr "subscribe"),
          ("channels", .vlist [.vdict
            (("name", .vstr ch) :: ("symbols", .vlist (symbols.map .vstr))
              :: kwargs)])]

/-- Registry effect of `_subscribe_channel` (after the authentication guard
passed and the frame was sent):
`self._subscriptions[channel] = {"symbols": symbols, "kwargs": kwargs}` —
last write wins. -/
def subscribeChannel (reg : Registry) (ch : String) (symbols : List String)
    (kwargs : PyDict) : Registry :=
  dictSet reg ch ⟨symbols, kwargs⟩

/-- Registry effect of `unsubscribe(channel, symbols)` (the unsubscribe
frame is sent unconditionally before this): each named symbol is removed
from the stored list when present (`list.remove` drops the first
occurrence, guarded by `if symbol in stored_symbols`, so absent symbols are
skipped); the entry is deleted when the remaining list is empty. -/
def unsubscribeReg (reg : Registry) (ch : String) (symbols : List String) :
    Registry :=
  match lookupKey reg ch with
  | none => reg
  | some entry =>
      let stored := symbols.foldl (fun acc s => acc.erase s) entry.symbols
      if stored.isEmpty then dictDel reg ch
      else dictSet reg ch { entry with symbols := stored }

/-- One registry-mutating operation of the client's public surface. -/
inductive SubOp where
  | sub (ch : String) (symbols : List String) (kwargs : PyDict)
  | unsub (ch : String) (symbols : List String)

/-- Registry effect of one call (a `_subscribe_channel` call reached while
unauthenticated raises before touching the registry, so authenticated calls
are the ones that matter). -/
def applyOp (reg : Registry) : SubOp → Registry
  | .sub ch symbols kwargs => subscribeChannel reg ch symbols kwargs
  | .unsub ch symbols => unsubscribeReg reg ch symbols

/-- Registry produced by a sequence of calls starting from the empty
registry of `__init__`. -/
def applyOps (ops : List SubOp) : Registry :=
  ops.foldl applyOp []

/-! ### Authentication handshake (`_authenticate` and `auth.py`) -/

/-- The auth request frame of `AuthManager.create_auth_message`. -/
def authMessage (apiKey signature : String) (timestamp : Int)
    (nonce : String) : PyVal :=
  .vdict [("action", .vstr "auth"), ("api_key", .vstr apiKey),
          ("signature", .vstr signature), ("timestamp", .vint timestamp),
          ("nonce", .vstr nonce)]

/-- Python `v == "lit"`: true only for an equal string (comparing any other
runtime type against a `str` is `False`). -/
def pyEqStr (v : PyVal) (s : String) : Bool :=
  match v with
  | .vstr t => t == s
  | _ => false

/-- The action of a decoded auth response:
`data.get("action") or data.get("a")`. -/
def authAction (data : PyDict) : PyVal :=
  pyOr (pyGet data "action") (pyGet data "a")

/-- The server message reported on an error action:
`data.get("message") or data.get("msg", "Unknown error")`. -/
def authServerMessage (data : PyDict) : PyVal :=
  pyOr (pyGet data "message") (pyGetD data "msg" (.vstr "Unknown error"))

/-- The payload of a raised `AuthenticationError`:
`f"Authentication failed: {error_msg}"` or
`f"Unexpected response: {action}"` (we keep the interpolated value). -/
inductive AuthErr where
  | failed (serverMsg : PyVal)
  | unexpected (action : PyVal)

/-- `_authenticate`, from the decoded response on: `.ok true` models
setting `self._is_authenticated = True` (the session reaches Ready);
`.error` models the raised `AuthenticationError`. -/
def authenticate (data : PyDict) : Except AuthErr Bool :=
  let action := authAction data
  if pyEqStr action "auth_success" then .ok true
  else if pyEqStr action "auth_error" || pyEqStr action "error" then
    .error (.failed (authServerMessage data))
  else
    .error (.unexpected action)

/-! ### Reconnection (`_handle_reconnection`)

We model the successful run of the procedure: the snapshot
`previous_subscriptions = self._subscriptions.copy()`, the replay loop
calling `_subscribe_channel(channel, symbols, **kwargs)` for each
snapshotted entry in order, and the frames those calls send.  The auth
frame sent by the embedded `_authenticate` step is the only other frame
carrying an `action` of its own. -/

/-- The subscribe frames sent by the replay loop, in registry order. -/
def reconnectSubscribeFrames (reg : Registry) : List PyVal :=
  reg.map fun p => subscribeFrame p.1 p.2.symbols p.2.kwargs

/-- All frames sent during a successful reconnection: the auth request of
the re-authentication step, then one subscribe frame per snapshotted
entry. -/
def reconnectSentFrames (reg : Registry) (apiKey signature : String)
    (timestamp : Int) (nonce : String) : List PyVal :=
  authMessage apiKey signature timestamp nonce :: reconnectSubscribeFrames reg

/-- Registry after the replay loop: each snapshotted entry is written back
through `_subscribe_channel` into the live registry (which still holds the
pre-snapshot contents). -/
def reconnectRegistry (reg : Registry) : Registry :=
  reg.foldl (fun acc p => subscribeChannel acc p.1 p.2.symbols p.2.kwargs) reg

/-- Whether a sent frame is a subscribe frame (its `action` field is
`"subscribe"`). -/
def isSubscribeFrame (f : PyVal) : Bool :=
  match f with
  | .vdict d => pyEqStr (pyGet d "action") "subscribe"
  | _ => false

/-! ### Health query (`is_healthy`) -/

/-- The fields of `TradingClient` read by `is_healthy`. -/
structure ClientHealthState where
  connection : Option WSConn
  isAuthenticated : Bool
  heartbeatInterval : ℚ
  lastPongTime : ℚ

/-- `is_healthy` as a function of the state and the current wall clock
`now` (= `time.time()`). -/
def is_healthy (st : ClientHealthState) (now : ℚ) : Bool :=
  match st.connection with
  | none => false
  | some c =>
      if !c.is_connected then false
      else if !st.isAuthenticated then false
      else if st.heartbeatInterval > 0 then
        if now - st.lastPongTime > 2 * st.heartbeatInterval then false
        else true
      else true

/-! ### Event dispatch (`on` / `_emit`)

The claim concerns synchronous handlers, so a handler is modelled by an
identity and the set of inputs on which its body raises (an async handler
is handed to `asyncio.create_task` instead of being called inline, and no
exception surfaces in `_emit` either way). -/

structure Handler where
  id : Nat
  raises : PyVal → Bool

/-- One handler call observed during `_emit`: which handler ran, the event
data it received, and whether its body raised (the raise is caught by the
`try/except` around the call and only logged). -/
structure Invocation where
  handlerId : Nat
  arg : PyVal
  raised : Bool

abbrev HandlerTable := List (String × List Handler)

/-- `on(event, handler)`: append to the event's list, creating it if
absent. -/
def onRegister (tbl : HandlerTable) (event : String) (h : Handler) :
    HandlerTable :=
  match lookupKey tbl event with
  | none => dictSet tbl event [h]
  | some hs => dictSet tbl event (hs ++ [h])

/-- The `for handler in self._event_handlers[event]` loop of `_emit`: each
call sits in its own `try/except Exception`, so a raising handler is logged
and the loop continues with the next handler. -/
def emitLoop (handlers : List Handler) (data : PyVal) :
    List Invocation × Except String Unit :=
  match handlers with
  | [] => ([], .ok ())
  | h :: rest =>
      let inv : Invocation := ⟨h.id, data, h.raises data⟩
      let (invs, res) := emitLoop rest data
      (inv :: invs, res)

/-- `_emit(event, data)`: a no-op when no handler list is registered. -/
def clientEmit (tbl : HandlerTable) (event : String) (data : PyVal) :
    List Invocation × Except String Unit :=
  match lookupKey tbl event with
  | some hs => emitLoop hs data
  | none => ([], .ok ())

/-! ## Typed record decoders (`models.py`)

Record fields keep their dynamic Python values.  `Decimal(str(x))` is
modelled by `pyDecimalStr`; `datetime.fromtimestamp(ms / 1000)` by
`msToSeconds` (seconds since the epoch as an exact rational — Python 3 `/`
is true division). -/

/-- `Decimal(str(x))`.  Numeric literals and numeric strings convert;
`str` of `None` or of a container is not a valid decimal literal and
raises `InvalidOperation`.  (A non-numeric plain string would also raise;
the frames considered here only carry numeric strings in decimal
positions.) -/
def pyDecimalStr : PyVal → Except PyErr PyVal
  | .vnone => .error .invalidOperation
  | .vlist _ => .error .invalidOperation
  | .vdict _ => .error .invalidOperation
  | v => .ok (.vdecimal v)

/-- `datetime.fromtimestamp(v / 1000)`: `v` must be a number. -/
def msToSeconds : PyVal → Except PyErr ℚ
  | .vint n => .ok ((n : ℚ) / 1000)
  | .vfloat q => .ok (q / 1000)
  | _ => .error .typeError

/-- Whether a field value is a binary floating-point number. -/
def PyVal.isBinaryFloat : PyVal → Bool
  | .vfloat _ => true
  | _ => false

/-- Whether a field value is an exact decimal (`decimal.Decimal`). -/
def PyVal.isExactDecimal : PyVal → Bool
  | .vdecimal _ => true
  | _ => false

structure Order where
  order_id : PyVal
  symbol : PyVal
  side : PyVal
  order_type : PyVal
  status : PyVal
  quantity : PyVal
  filled_quantity : PyVal
  price : PyVal
  average_fill_price : PyVal
  timestamp : ℚ

/-- The optional price fields of `Order.from_dict`:
`Decimal(str(data[abbrevKey])) if (data.get(abbrevKey) or
data.get(verboseKey)) else None`.  Note the guard/index mismatch copied
from the source: the guard tests both key spellings, but the conversion
then subscripts the abbreviated key unconditionally. -/
def orderPriceField (data : PyDict) (abbrevKey verboseKey : String) :
    Except PyErr PyVal :=
  if truthy (pyOr (pyGet data abbrevKey) (pyGet data verboseKey)) then do
    let v ← pyIndex data abbrevKey
    pyDecimalStr v
  else pure .vnone

/-- `Order.from_dict`. -/
def Order.fromDict (data : PyDict) : Except PyErr Order := do
  let price ← orderPriceField data "p" "price"
  let avg ← orderPriceField data "ap" "average_fill_price"
  let ts ← msToSeconds (pyOr (pyGet data "t") (pyGet data "timestamp"))
  pure { order_id := pyOr (pyGet data "oid") (pyGet data "order_id"),
         symbol := pyOr (pyGet data "S") (pyGet data "symbol"),
         side := pyOr (pyGet data "sd") (pyGet data "side"),
         order_type := pyOr (pyGet data "ot") (pyGet data "order_type"),
         status := pyOr (pyGet data "st") (pyGet data "status"),
         quantity := pyOr (pyGet data "q") (pyGet data "quantity"),
         filled_quantity := pyOr (pyGet data "fq") (pyGet data "filled_quantity"),
         price := price,
         average_fill_price := avg,
         timestamp := ts }

structure Position where
  symbol : PyVal
  quantity : PyVal
  average_price : PyVal
  market_value : PyVal
  cost_basis : PyVal
  unrealized_pl : PyVal
  unrealized_pl_percent : PyVal
  timestamp : ℚ

/-- `Position.from_dict`: monetary fields go through `Decimal(str(...))`;
`quantity` is taken verbatim from the wire value. -/
def Position.fromDict (data : PyDict) : Except PyErr Position := do
  let ap ← pyDecimalStr (pyOr (pyGet data "ap") (pyGet data "average_price"))
  let mv ← pyDecimalStr (pyOr (pyGet data "mv") (pyGet data "market_value"))
  let cb ← pyDecimalStr (pyOr (pyGet data "cb") (pyGet data "cost_basis"))
  let upl ← pyDecimalStr (pyOr (pyGet data "upl") (pyGet data "unrealized_pl"))
  let uplp ← pyDecimalStr
    (pyOr (pyGet data "uplp") (pyGet data "unrealized_pl_percent"))
  let ts ← msToSeconds (pyOr (pyGet data "t") (pyGet data "timestamp"))
  pure { symbol := pyOr (pyGet data "S") (pyGet data "symbol"),
         quantity := pyOr (pyGet data "q") (pyGet data "quantity"),
         average_price := ap,
         market_value := mv,
         cost_basis := cb,
         unrealized_pl := upl,
         unrealized_pl_percent := uplp,
         timestamp := ts }

structure AccountUpdate where
  cash : PyVal
  buying_power : PyVal
  portfolio_value : PyVal
  equity : PyVal
  timestamp : ℚ

/-- `AccountUpdate.from_dict`: all four balances go through
`Decimal(str(...))`. -/
def AccountUpdate.fromDict (data : PyDict) : Except PyErr AccountUpdate := do
  let c ← pyDecimalStr (pyOr (pyGet data "c") (pyGet data "cash"))
  let bp ← pyDecimalStr (pyOr (pyGet data "bp") (pyGet data "buying_power"))
  let pv ← pyDecimalStr (pyOr (pyGet data "pv") (pyGet data "portfolio_value"))
  let eq ← pyDecimalStr (pyOr (pyGet data "eq") (pyGet data "equity"))
  let ts ← msToSeconds (pyOr (pyGet data "t") (pyGet data "timestamp"))
  pure { cash := c, buying_power := bp, portfolio_value := pv,
         equity := eq, timestamp := ts }

/-- Whether a field value is an exact decimal or Python `None` (the shape
of `Order.price` / `Order.average_fill_price`, which are `Optional`). -/
def PyVal.isDecimalOrNone : PyVal → Bool
  | .vdecimal _ => true
  | .vnone => true
  | _ => false

/-! ## Concrete inputs used by witnesses and counterexamples -/

/-- Expected event trace of a `connect()` call in which every attempt
fails: `steps` attempts starting at index `idx`, with the retry counter at
`rc` on entry; every failure but the last is followed by a backoff
sleep. -/
def allFailEvents (idx rc : Nat) : Nat → List ConnEvent
  | 0 => []
  | steps + 1 =>
      if steps = 0 then [.attemptOpen idx]
      else .attemptOpen idx :: .sleep (backoffDelay (rc + 1)) ::
        allFailEvents (idx + 1) (rc + 1) steps

/-- A live connection (auto-reconnect on) about to observe a close. -/
def c7State : WSConn :=
  { autoReconnect := true, maxRetries := 10, retryCount := 0,
    isConnectedFlag := true, hasWs := true }

/-- An order frame spelled entirely with verbose (JSON) field names. -/
def orderVerboseInput : PyDict :=
  [("order_id", .vstr "O1"), ("symbol", .vstr "AAPL"), ("side", .vstr "NB"),
   ("order_type", .vstr "LO"), ("status", .vstr "New"),
   ("quantity", .vint 100), ("filled_quantity", .vint 50),
   ("price", .vint 26500), ("timestamp", .vint 1700000000000)]

/-- The same order frame spelled with abbreviated field names. -/
def orderAbbrevInput : PyDict :=
  [("oid", .vstr "O1"), ("S", .vstr "AAPL"), ("sd", .vstr "NB"),
   ("ot", .vstr "LO"), ("st", .vstr "New"), ("q", .vint 100),
   ("fq", .vint 50), ("p", .vint 26500), ("t", .vint 1700000000000)]

/-- A position frame whose wire quantity is a binary float (`100.0`). -/
def positionFloatQtyInput : PyDict :=
  [("S", .vstr "AAPL"), ("q", .vfloat 100), ("ap", .vstr "150.00"),
   ("mv", .vstr "15075.00"), ("cb", .vstr "15000.00"),
   ("upl", .vstr "75.00"), ("uplp", .vstr "0.5"),
   ("t", .vint 1700000000000)]

/-- An auth response whose action arrives under the abbreviated key. -/
def authSuccessInput : PyDict := [("a", .vstr "auth_success")]

/-- A handler whose body raises on every input. -/
def raisingHandler : Handler := ⟨0, fun _ => true⟩

/-- A handler whose body never raises. -/
def okHandler : Handler := ⟨1, fun _ => false⟩

/-- An event table with a raising handler registered before a well-behaved
one. -/
def c10Table : HandlerTable := [("error", [raisingHandler, okHandler])]

/-! ## Lemmas about the Transport Connection -/

/-- Characterization of a `connect()` call in which every socket-open
attempt fails: the retry counter climbs to `max_retries`, the events are
`allFailEvents`, and the call raises `ConnectionError` carrying
`max_retries` and the cause of the final attempt. -/
theorem connectLoop_allFail (steps : Nat) :
    ∀ (c : WSConn) (env : Nat → Option String) (cause : Nat → String)
      (idx : Nat) (trace : List ConnEvent),
      (∀ n, env n = some (cause n)) →
      steps = c.maxRetries - c.retryCount → 0 < steps →
      connectLoop c env idx trace =
        ({ c with retryCount := c.maxRetries },
         trace ++ allFailEvents idx c.retryCount steps,
         .error (connectFailMsg c.maxRetries (cause (idx + (steps - 1))))) := by
  induction steps with
  | zero => intro c env cause idx trace _ _ h0; omega
  | succ k ih =>
      intro c env cause idx trace henv hsteps _
      have hlt : c.retryCount < c.maxRetries := by omega
      rw [connectLoop]
      simp only [hlt, if_true, henv idx]
      by_cases hk : k = 0
      · subst hk
        have hmax : c.retryCount + 1 = c.maxRetries := by omega
        simp only [ge_iff_le, hmax, le_refl, if_true, allFailEvents, if_pos rfl]
        norm_num
      · have hnot : ¬ c.retryCount + 1 ≥ c.maxRetries := by omega
        simp only [ge_iff_le, hnot, if_false]
        rw [ih { c with retryCount := c.retryCount + 1 } env cause (idx + 1)
          (trace ++ [ConnEvent.attemptOpen idx,
            ConnEvent.sleep (backoffDelay (c.retryCount + 1))])
          henv (by simp; omega) (by omega)]
        have hidx : idx + 1 + (k - 1) = idx + (k + 1 - 1) := by omega
        rw [hidx]
        simp only [allFailEvents, if_neg hk, List.append_assoc,
          List.cons_append, List.nil_append]

/-- A `connect()` call whose `k`-th attempt succeeds (after `k` failures)
returns with the retry counter reset to zero and the connected flag
set. -/
theorem connectLoop_success (k : Nat) :
    ∀ (c : WSConn) (env : Nat → Option String) (idx : Nat)
      (trace : List ConnEvent),
      c.retryCount + k < c.maxRetries →
      (∀ i, i < k → (env (idx + i)).isSome) →
      env (idx + k) = none →
      (connectLoop c env idx trace).1.retryCount = 0 ∧
      (connectLoop c env idx trace).1.isConnectedFlag = true ∧
      (connectLoop c env idx trace).1.hasWs = true ∧
      (connectLoop c env idx trace).2.2 = .ok () := by
  induction k with
  | zero =>
      intro c env idx trace hlt _ hk
      have h0 : c.retryCount < c.maxRetries := by omega
      rw [connectLoop]
      simp only [h0, if_true]
      rw [show idx + 0 = idx from rfl] at hk
      rw [hk]
      exact ⟨rfl, rfl, rfl, rfl⟩
  | succ k ih =>
      intro c env idx trace hlt hfail hk
      have h0 : c.retryCount < c.maxRetries := by omega
      have h1 : (env idx).isSome := by
        have := hfail 0 (by omega)
        simpa using this
      obtain ⟨e, he⟩ := Option.isSome_iff_exists.mp h1
      rw [connectLoop]
      simp only [h0, if_true, he]
      have hnot : ¬ c.retryCount + 1 ≥ c.maxRetries := by omega
      simp only [ge_iff_le, hnot, if_false]
      exact ih { c with retryCount := c.retryCount + 1 } env (idx + 1) _
        (by simp; omega)
        (fun i hi => by
          have := hfail (i + 1) (by omega)
          have harr : idx + (i + 1) = idx + 1 + i := by omega
          rwa [harr] at this)
        (by have harr : idx + 1 + k = idx + (k + 1) := by omega
            rwa [harr])

/-- A `connect()` call entered with the retry counter already at
`max_retries` never runs the loop body: same state, no events, `None`
return. -/
theorem connectLoop_exhausted (c : WSConn) (env : Nat → Option String)
    (h : c.maxRetries ≤ c.retryCount) :
    c.connect env = (c, [], .ok ()) := by
  rw [WSConn.connect, connectLoop]
  simp only [if_neg (by omega : ¬ c.retryCount < c.maxRetries)]

/-- `traceDelays` drops an open attempt. -/
theorem traceDelays_attempt (i : Nat) (t : List ConnEvent) :
    traceDelays (ConnEvent.attemptOpen i :: t) = traceDelays t := rfl

/-- `traceDelays` keeps a sleep. -/
theorem traceDelays_sleep (d : Nat) (t : List ConnEvent) :
    traceDelays (ConnEvent.sleep d :: t) = d :: traceDelays t := rfl

/-- The backoff sleeps of an all-failing run, in order. -/
theorem traceDelays_allFailEvents :
    ∀ (steps idx rc : Nat),
      traceDelays (allFailEvents idx rc steps) =
        (List.range (steps - 1)).map fun i => backoffDelay (rc + 1 + i) := by
  intro steps
  induction steps with
  | zero => intro idx rc; rfl
  | succ k ih =>
      intro idx rc
      by_cases hk : k = 0
      · subst hk; rfl
      · rw [allFailEvents, if_neg hk, traceDelays_attempt, traceDelays_sleep,
          ih (idx + 1) (rc + 1)]
        obtain ⟨j, rfl⟩ := Nat.exists_eq_succ_of_ne_zero hk
        rw [Nat.succ_sub_one, Nat.succ_sub_one, List.range_succ_eq_map,
          List.map_cons, List.map_map]
        refine congrArg₂ List.cons (congrArg backoffDelay (by omega)) ?_
        exact List.map_congr_left fun i _ => by
          simp only [Function.comp_apply]
          exact congrArg backoffDelay (by omega)

/-! ## Claim C3 -/

/-- C3: starting from a fresh connection, when every attempt fails the
backoff before the `n`-th retry is `min(2^(n-1), 60)` seconds
(`n = 1..max_retries`; the delays in order are
`min(2^0,60), ..., min(2^(max_retries-2),60)` — after the final attempt
the call raises instead of sleeping), exhausting retries raises a
`ConnectionError` carrying the attempt count and the last cause, and a
connect whose `k`-th attempt succeeds resets the retry counter to zero. -/
theorem c3_backoff_exhaustion_and_reset
    (ar : Bool) (m : Nat) (env : Nat → Option String) (cause : Nat → String)
    (henv : ∀ n, env n = some (cause n)) (hm : 1 ≤ m) :
    traceDelays ((WSConn.fresh ar m).connect env).2.1 =
      (List.range (m - 1)).map (fun i => min (2 ^ i) 60) ∧
    (∀ n d, 1 ≤ n → n ≤ m →
       (traceDelays ((WSConn.fresh ar m).connect env).2.1).get? (n - 1) =
         some d →
       d = min (2 ^ (n - 1)) 60) ∧
    ((WSConn.fresh ar m).connect env).2.2 =
      .error (connectFailMsg m (cause (m - 1))) ∧
    (∀ (ar₂ : Bool) (m₂ : Nat) (env₂ : Nat → Option String) (k : Nat),
       k < m₂ → (∀ i, i < k → (env₂ i).isSome) → env₂ k = none →
       ((WSConn.fresh ar₂ m₂).connect env₂).1.retryCount = 0 ∧
       ((WSConn.fresh ar₂ m₂).connect env₂).1.is_connected = true ∧
       ((WSConn.fresh ar₂ m₂).connect env₂).2.2 = .ok ()) := by
  have hrun := connectLoop_allFail m (WSConn.fresh ar m) env cause 0 []
    henv (by simp [WSConn.fresh]) (by omega)
  have hdelays : traceDelays ((WSConn.fresh ar m).connect env).2.1 =
      (List.range (m - 1)).map (fun i => min (2 ^ i) 60) := by
    rw [WSConn.connect, hrun]
    simp only [List.nil_append]
    rw [traceDelays_allFailEvents]
    exact List.map_congr_left fun i _ => by
      show backoffDelay ((WSConn.fresh ar m).retryCount + 1 + i) = _
      show min (2 ^ (0 + 1 + i - 1)) 60 = min (2 ^ i) 60
      congr 1
      congr 1
      omega
  refine ⟨hdelays, ?_, ?_, ?_⟩
  · intro n d hn1 hnm hget
    rw [hdelays] at hget
    by_cases hlt : n - 1 < m - 1
    · rw [List.get?_map, List.get?_range hlt] at hget
      simp only [Option.map_some'] at hget
      exact (Option.some.inj hget).symm
    · have hle : m - 1 ≤ n - 1 := by omega
      rw [List.get?_eq_none.mpr (by simpa using hle)] at hget
      cases hget
  · rw [WSConn.connect, hrun]
    have h0 : (0 : Nat) + (m - 1) = m - 1 := by omega
    rw [h0]
    rfl
  · intro ar₂ m₂ env₂ k hk hfail hsucc
    have h := connectLoop_success k (WSConn.fresh ar₂ m₂) env₂ 0 []
      (by simp [WSConn.fresh]; omega)
      (fun i hi => by
        have h0 : (0 : Nat) + i = i := by omega
        rw [h0]; exact hfail i hi)
      (by have h0 : (0 : Nat) + k = k := by omega
          rw [h0]; exact hsucc)
    refine ⟨by rw [WSConn.connect]; exact h.1, ?_,
      by rw [WSConn.connect]; exact h.2.2.2⟩
    show (_ && _) = true
    rw [WSConn.connect, h.2.1, h.2.2.1]
    rfl

/-- Witness for C3, at `max_retries = 3` and an environment in which every
attempt fails with cause `"refused"`: the delays are `[1, 2]` and the call
fails with the exhaustion message. -/
theorem c3_witness :
    traceDelays ((WSConn.fresh true 3).connect fun _ => some "refused").2.1 =
      [1, 2] ∧
    ((WSConn.fresh true 3).connect fun _ => some "refused").2.2 =
      .error (connectFailMsg 3 "refused") := by
  have h := c3_backoff_exhaustion_and_reset true 3 (fun _ => some "refused")
    (fun _ => "refused") (fun _ => rfl) (by omega)
  refine ⟨?_, h.2.2.1⟩
  rw [h.1]
  rfl

/-! ## Claim C9 -/

/-- C9: after a `connect()` call has failed by exhausting `max_retries`
attempts, the retry counter stays at `max_retries` (it is never reset on
failure), so every later `connect()` call returns immediately — no open
attempt, no sleep, no raised error — and leaves the connected flag
unset. -/
theorem c9_noop_after_exhaustion
    (ar : Bool) (m : Nat) (env : Nat → Option String) (cause : Nat → String)
    (henv : ∀ n, env n = some (cause n)) (hm : 1 ≤ m) :
    ((WSConn.fresh ar m).connect env).1.retryCount = m ∧
    ((WSConn.fresh ar m).connect env).1.is_connected = false ∧
    (∀ env₂, (((WSConn.fresh ar m).connect env).1).connect env₂ =
       (((WSConn.fresh ar m).connect env).1, [], .ok ())) := by
  have hrun := connectLoop_allFail m (WSConn.fresh ar m) env cause 0 []
    henv (by simp [WSConn.fresh]) (by omega)
  rw [WSConn.connect, hrun]
  exact ⟨rfl, rfl, fun env₂ => connectLoop_exhausted _ env₂ le_rfl⟩

/-- Witness for C9: with `max_retries = 3` and all attempts failing, a
second `connect()` is an immediate no-op and the connection is down. -/
theorem c9_witness :
    (((WSConn.fresh true 3).connect fun _ => some "refused").1).connect
        (fun _ => none) =
      ((((WSConn.fresh true 3).connect fun _ => some "refused")).1, [],
        .ok ()) ∧
    ((WSConn.fresh true 3).connect fun _ => some "refused").1.is_connected =
      false := by
  have h := c9_noop_after_exhaustion true 3 (fun _ => some "refused")
    (fun _ => "refused") (fun _ => rfl) (by omega)
  exact ⟨h.2.2 _, h.2.1⟩

/-! ## Claim C7 -/

/-- C7 counterexample: a `receive()` that reports a recoverable close
(code 1006) leaves the connection in a state where the next `receive()`
raises `ConnectionError("Not connected")` — which is not a closed
condition — contradicting the claim that every receive after a close
report itself reports closed. -/
theorem c7_counterexample :
    (c7State.receive (.closed 1006)).2.isClosedReport = true ∧
    ((c7State.receive (.closed 1006)).1.receive (.frame "x")).2 =
      .connError "Not connected" ∧
    ((c7State.receive (.closed 1006)).1.receive
        (.frame "x")).2.isClosedReport = false :=
  ⟨rfl, rfl, rfl⟩

/-- C7 (amended): after a `receive()` call has reported a closed condition
(raised `ConnectionClosed`), every subsequent `receive()` on the same
connection fails with `ConnectionError("Not connected")` — it never
returns a frame, but the failure is a `ConnectionError`, not another
closed report. -/
theorem c7_amended_receive_after_close
    (c : WSConn) (net : NetRecv) (c' : WSConn) (msg : String) (rec : Bool)
    (h : c.receive net = (c', .connClosed msg rec)) :
    ∀ net₂, c'.receive net₂ = (c', .connError "Not connected") := by
  intro net₂
  have hflag : c'.isConnectedFlag = false := by
    by_cases hg : (!c.hasWs || !c.isConnectedFlag) = true
    · rw [WSConn.receive.eq_def, if_pos hg] at h
      injection h with h1 h2
      cases h2
    · rw [WSConn.receive.eq_def, if_neg hg] at h
      cases net with
      | frame p =>
          injection h with h1 h2
          cases h2
      | closed code =>
          dsimp only at h
          split_ifs at h <;> (injection h with h1 h2; rw [← h1])
  rw [WSConn.receive.eq_def, if_pos (by rw [hflag]; simp)]

/-- Witness for the amended C7: after the recoverable close of the
counterexample state, a subsequent receive fails with
`ConnectionError("Not connected")`. -/
theorem c7_amended_witness :
    ((c7State.receive (.closed 1006)).1).receive (.frame "hello") =
      ((c7State.receive (.closed 1006)).1, .connError "Not connected") :=
  c7_amended_receive_after_close c7State (.closed 1006)
    (c7State.receive (.closed 1006)).1 "Connection closed abnormally: 1006"
    true rfl (.frame "hello")

/-! ## Lemmas about association lists (Python dicts) -/

/-- Setting a key makes it the one looked up. -/
theorem lookupKey_dictSet_self {α : Type} (l : List (String × α)) (k : String)
    (v : α) : lookupKey (dictSet l k v) k = some v := by
  induction l with
  | nil => simp [dictSet, lookupKey]
  | cons p rest ih =>
      obtain ⟨a, b⟩ := p
      by_cases h : a = k
      · simp [dictSet, h, lookupKey]
      · simp [dictSet, h, lookupKey, ih]

/-- Setting a key leaves every other key's lookup unchanged. -/
theorem lookupKey_dictSet_ne {α : Type} (l : List (String × α))
    (k k' : String) (v : α) (h : k' ≠ k) :
    lookupKey (dictSet l k v) k' = lookupKey l k' := by
  induction l with
  | nil => simp [dictSet, lookupKey, Ne.symm h]
  | cons p rest ih =>
      obtain ⟨a, b⟩ := p
      by_cases ha : a = k
      · subst ha
        simp [dictSet, lookupKey, Ne.symm h]
      · simp [dictSet, ha, lookupKey, ih]

/-- Deleting a key leaves every other key's lookup unchanged. -/
theorem lookupKey_dictDel_ne {α : Type} (l : List (String × α))
    (k k' : String) (h : k' ≠ k) :
    lookupKey (dictDel l k) k' = lookupKey l k' := by
  induction l with
  | nil => simp [dictDel]
  | cons p rest ih =>
      obtain ⟨a, b⟩ := p
      by_cases ha : a = k
      · subst ha
        rw [show dictDel ((a, b) :: rest) a = rest by simp [dictDel]]
        dsimp only [lookupKey]
        rw [if_neg fun hh => h hh.symm]
      · simp [dictDel, ha, lookupKey, ih]

/-- A key that does not occur has no binding. -/
theorem lookupKey_eq_none_of_not_mem {α : Type} (l : List (String × α))
    (k : String) (h : k ∉ alistKeys l) : lookupKey l k = none := by
  induction l with
  | nil => rfl
  | cons p rest ih =>
      obtain ⟨a, b⟩ := p
      simp only [alistKeys, List.map_cons, List.mem_cons] at h
      push_neg at h
      dsimp only [lookupKey]
      rw [if_neg fun hh => h.1 hh.symm]
      exact ih h.2

/-- With unique keys, deleting a key removes its binding. -/
theorem lookupKey_dictDel_self {α : Type} (l : List (String × α))
    (k : String) (h : (alistKeys l).Nodup) :
    lookupKey (dictDel l k) k = none := by
  induction l with
  | nil => rfl
  | cons p rest ih =>
      obtain ⟨a, b⟩ := p
      simp only [alistKeys, List.map_cons, List.nodup_cons] at h
      by_cases ha : a = k
      · subst ha
        simp only [dictDel, if_pos rfl]
        exact lookupKey_eq_none_of_not_mem rest a h.1
      · simp [dictDel, ha, lookupKey, ih h.2]

/-- Writing back the value a key already holds is a no-op. -/
theorem dictSet_of_lookupKey {α : Type} (l : List (String × α))
    (k : String) (v : α) (h : lookupKey l k = some v) : dictSet l k v = l := by
  induction l with
  | nil => cases h
  | cons p rest ih =>
      obtain ⟨a, b⟩ := p
      by_cases ha : a = k
      · subst ha
        rw [lookupKey, if_pos rfl] at h
        obtain rfl := Option.some.inj h
        simp [dictSet]
      · rw [lookupKey, if_neg ha] at h
        simp [dictSet, ha, ih h]

/-- Keys after an assignment: unchanged when present, appended when new. -/
theorem alistKeys_dictSet {α : Type} (l : List (String × α)) (k : String)
    (v : α) :
    alistKeys (dictSet l k v) =
      if k ∈ alistKeys l then alistKeys l else alistKeys l ++ [k] := by
  induction l with
  | nil => simp [dictSet, alistKeys]
  | cons p rest ih =>
      obtain ⟨a, b⟩ := p
      by_cases ha : a = k
      · subst ha
        simp [dictSet, alistKeys]
      · simp only [dictSet, if_neg ha, alistKeys, List.map_cons,
          List.mem_cons]
        have ih' : List.map Prod.fst (dictSet rest k v) =
            if k ∈ List.map Prod.fst rest then List.map Prod.fst rest
            else List.map Prod.fst rest ++ [k] := ih
        rw [ih']
        by_cases hm : k ∈ List.map Prod.fst rest
        · simp [hm, Ne.symm ha]
        · simp [hm, Ne.symm ha]

/-- Python dict assignment preserves key uniqueness. -/
theorem nodup_alistKeys_dictSet {α : Type} (l : List (String × α))
    (k : String) (v : α) (h : (alistKeys l).Nodup) :
    (alistKeys (dictSet l k v)).Nodup := by
  rw [alistKeys_dictSet]
  by_cases hm : k ∈ alistKeys l
  · simpa [hm] using h
  · simp only [hm, if_false]
    simp [List.nodup_append, h, hm]

/-- Deleting a key keeps a sublist of the keys. -/
theorem alistKeys_dictDel_sublist {α : Type} (l : List (String × α))
    (k : String) : List.Sublist (alistKeys (dictDel l k)) (alistKeys l) := by
  induction l with
  | nil => exact List.Sublist.refl _
  | cons p rest ih =>
      obtain ⟨a, b⟩ := p
      by_cases ha : a = k
      · simp only [dictDel, if_pos ha, alistKeys, List.map_cons]
        exact List.Sublist.cons a (List.Sublist.refl _)
      · simp only [dictDel, if_neg ha, alistKeys, List.map_cons]
        exact ih.cons₂ a

/-- With unique keys, every binding is the one its key looks up to. -/
theorem lookupKey_of_mem_nodup {α : Type} (l : List (String × α))
    (p : String × α) (h : (alistKeys l).Nodup) (hp : p ∈ l) :
    lookupKey l p.1 = some p.2 := by
  induction l with
  | nil => cases hp
  | cons q rest ih =>
      obtain ⟨a, b⟩ := q
      simp only [alistKeys, List.map_cons, List.nodup_cons] at h
      rcases List.mem_cons.mp hp with heq | hmem
      · subst heq
        simp [lookupKey]
      · have hne : a ≠ p.1 := by
          intro hh
          exact h.1 (by
            rw [hh]
            exact List.mem_map.mpr ⟨p, hmem, rfl⟩)
        simp [lookupKey, hne, ih h.2 hmem]

/-- Registry operations preserve key uniqueness. -/
theorem nodup_alistKeys_applyOp (reg : Registry) (op : SubOp)
    (h : (alistKeys reg).Nodup) : (alistKeys (applyOp reg op)).Nodup := by
  cases op with
  | sub ch symbols kwargs => exact nodup_alistKeys_dictSet reg ch _ h
  | unsub ch symbols =>
      rw [applyOp, unsubscribeReg]
      cases hl : lookupKey reg ch with
      | none => exact h
      | some entry =>
          by_cases he : (symbols.foldl (fun acc s => acc.erase s)
              entry.symbols).isEmpty
          · simp only [he, if_true]
            exact ((alistKeys_dictDel_sublist reg ch).nodup h)
          · simp only [he, if_false]
            exact nodup_alistKeys_dictSet reg ch _ h

/-- Every registry reachable from `__init__` has unique channel keys. -/
theorem nodup_alistKeys_applyOps (ops : List SubOp) :
    (alistKeys (applyOps ops)).Nodup := by
  rw [applyOps]
  have : ∀ (l : List SubOp) (reg : Registry), (alistKeys reg).Nodup →
      (alistKeys (l.foldl applyOp reg)).Nodup := by
    intro l
    induction l with
    | nil => intro reg h; exact h
    | cons op rest ih =>
        intro reg h
        exact ih (applyOp reg op) (nodup_alistKeys_applyOp reg op h)
  exact this ops [] (by simp [alistKeys])

/-- Replaying entries that the registry already holds is the identity. -/
theorem foldl_subscribeChannel_id (l reg : Registry)
    (h : ∀ p ∈ l, lookupKey reg p.1 = some p.2) :
    l.foldl (fun acc p => subscribeChannel acc p.1 p.2.symbols p.2.kwargs)
      reg = reg := by
  induction l with
  | nil => rfl
  | cons p rest ih =>
      simp only [List.foldl_cons]
      have hp : subscribeChannel reg p.1 p.2.symbols p.2.kwargs = reg :=
        dictSet_of_lookupKey reg p.1 p.2 (h p (List.mem_cons_self p rest))
      rw [hp]
      exact ih fun q hq => h q (List.mem_cons_of_mem p hq)

/-- The replayed subscribe frames are exactly the subscribe frames among
everything sent. -/
theorem filter_subscribeFrames (R : Registry) :
    (reconnectSubscribeFrames R).filter isSubscribeFrame =
      R.map fun p => subscribeFrame p.1 p.2.symbols p.2.kwargs := by
  rw [reconnectSubscribeFrames]
  induction R with
  | nil => rfl
  | cons p rest ih =>
      simp only [List.map_cons, List.filter_cons]
      rw [show isSubscribeFrame (subscribeFrame p.1 p.2.symbols p.2.kwargs) =
          true from rfl]
      simp only [if_true, ih]

/-! ## Claim C1 -/

/-- C1: for every sequence of subscribe/unsubscribe calls leaving the
registry in state `R`, a reconnection sends exactly one subscribe frame
per entry of `R`, in registry order, each built from that entry's channel
name, symbol list and extra parameters — and the registry equals `R`
afterwards. -/
theorem c1_reconnection_replay (ops : List SubOp)
    (apiKey signature : String) (timestamp : Int) (nonce : String) :
    (reconnectSentFrames (applyOps ops) apiKey signature timestamp
        nonce).filter isSubscribeFrame =
      (applyOps ops).map
        (fun p => subscribeFrame p.1 p.2.symbols p.2.kwargs) ∧
    reconnectRegistry (applyOps ops) = applyOps ops := by
  constructor
  · rw [reconnectSentFrames, List.filter_cons]
    rw [show isSubscribeFrame (authMessage apiKey signature timestamp nonce) =
        false from rfl]
    simp only [Bool.false_eq_true, if_false]
    exact filter_subscribeFrames (applyOps ops)
  · exact foldl_subscribeChannel_id (applyOps ops) (applyOps ops)
      fun p hp =>
        lookupKey_of_mem_nodup (applyOps ops) p (nodup_alistKeys_applyOps ops)
          hp

/-! ## Lemmas about symbol removal -/

/-- Removing each requested symbol keeps a sublist of the stored list. -/
theorem foldl_erase_sublist (syms l : List String) :
    List.Sublist (syms.foldl (fun acc s => acc.erase s) l) l := by
  induction syms generalizing l with
  | nil => exact List.Sublist.refl l
  | cons s rest ih =>
      exact (ih (l.erase s)).trans (List.erase_sublist s l)

/-- Symbols that were not requested keep their multiplicity. -/
theorem count_foldl_erase (syms l : List String) (x : String)
    (hx : x ∉ syms) :
    (syms.foldl (fun acc s => acc.erase s) l).count x = l.count x := by
  induction syms generalizing l with
  | nil => rfl
  | cons s rest ih =>
      simp only [List.mem_cons] at hx
      push_neg at hx
      rw [List.foldl_cons, ih (l.erase s) hx.2,
        List.count_erase_of_ne hx.1 l]

/-- Requested symbols that are all absent change nothing. -/
theorem foldl_erase_of_disjoint (syms l : List String)
    (h : ∀ s ∈ syms, s ∉ l) :
    syms.foldl (fun acc s => acc.erase s) l = l := by
  induction syms with
  | nil => rfl
  | cons s rest ih =>
      rw [List.foldl_cons,
        List.erase_of_not_mem (h s (List.mem_cons_self s rest))]
      exact ih fun q hq => h q (List.mem_cons_of_mem s hq)

/-! ## Claim C5 -/

/-- C5: `unsubscribe(channel, symbols)` touches only that channel's entry:
other channels look up unchanged; a missing channel changes nothing; on a
present entry only the named symbols are removed (the remainder is a
sublist, and un-named symbols keep their multiplicity), the entry is
deleted exactly when the remaining symbol list is empty, and requested
symbols absent from the entry are silently ignored. -/
theorem c5_unsubscribe_partial_removal (reg : Registry) (ch : String)
    (syms : List String) (hnd : (alistKeys reg).Nodup) :
    (∀ ch', ch' ≠ ch →
       lookupKey (unsubscribeReg reg ch syms) ch' = lookupKey reg ch') ∧
    (lookupKey reg ch = none → unsubscribeReg reg ch syms = reg) ∧
    (∀ e, lookupKey reg ch = some e →
       List.Sublist (syms.foldl (fun acc s => acc.erase s) e.symbols)
         e.symbols ∧
       (∀ x, x ∉ syms →
          (syms.foldl (fun acc s => acc.erase s) e.symbols).count x =
            e.symbols.count x) ∧
       (syms.foldl (fun acc s => acc.erase s) e.symbols = [] →
          lookupKey (unsubscribeReg reg ch syms) ch = none) ∧
       (syms.foldl (fun acc s => acc.erase s) e.symbols ≠ [] →
          lookupKey (unsubscribeReg reg ch syms) ch =
            some ⟨syms.foldl (fun acc s => acc.erase s) e.symbols,
              e.kwargs⟩) ∧
       ((∀ s ∈ syms, s ∉ e.symbols) → e.symbols ≠ [] →
          unsubscribeReg reg ch syms = reg)) := by
  refine ⟨?_, ?_, ?_⟩
  · intro ch' hne
    rw [unsubscribeReg]
    cases hl : lookupKey reg ch with
    | none => rfl
    | some entry =>
        by_cases he : (syms.foldl (fun acc s => acc.erase s)
            entry.symbols).isEmpty
        · simp only [he, if_true]
          exact lookupKey_dictDel_ne reg ch ch' hne
        · simp only [he, if_false]
          exact lookupKey_dictSet_ne reg ch ch' _ hne
  · intro hl
    rw [unsubscribeReg, hl]
  · intro e hl
    refine ⟨foldl_erase_sublist syms e.symbols,
      fun x hx => count_foldl_erase syms e.symbols x hx, ?_, ?_, ?_⟩
    · intro hempty
      rw [unsubscribeReg, hl]
      dsimp only
      rw [hempty]
      simp only [List.isEmpty_nil, if_true]
      exact lookupKey_dictDel_self reg ch hnd
    · intro hne
      rw [unsubscribeReg, hl]
      dsimp only
      rw [if_neg (by simpa [List.isEmpty_iff] using hne)]
      exact lookupKey_dictSet_self reg ch _
    · intro hdis hsne
      rw [unsubscribeReg, hl]
      dsimp only
      rw [foldl_erase_of_disjoint syms e.symbols hdis]
      rw [if_neg (by simpa [List.isEmpty_iff] using hsne)]
      exact dictSet_of_lookupKey reg ch e hl

/-- Witness for C5, on the spec's own example: channel `"bar"` holding
`["A","B"]`; unsubscribing `["A"]` leaves `["B"]`, then unsubscribing
`["B"]` removes the entry. -/
theorem c5_witness :
    lookupKey (unsubscribeReg [("bar", ⟨["A", "B"], []⟩)] "bar" ["A"])
        "bar" = some ⟨["B"], []⟩ ∧
    lookupKey (unsubscribeReg [("bar", ⟨["B"], []⟩)] "bar" ["B"])
        "bar" = none := by
  constructor
  · exact (((c5_unsubscribe_partial_removal [("bar", ⟨["A", "B"], []⟩)]
      "bar" ["A"] (by simp [alistKeys])).2.2 ⟨["A", "B"], []⟩
      rfl).2.2.2.1 (by simp))
  · exact (((c5_unsubscribe_partial_removal [("bar", ⟨["B"], []⟩)]
      "bar" ["B"] (by simp [alistKeys])).2.2 ⟨["B"], []⟩
      rfl).2.2.1 (by simp))

/-! ## Claim C4 -/

/-- `pyEqStr` is Python string equality. -/
theorem pyEqStr_eq_true_iff (v : PyVal) (s : String) :
    pyEqStr v s = true ↔ v = .vstr s := by
  cases v <;> simp [pyEqStr]

/-- C4: the auth step is a trichotomy on the action resolved from the
response (key `action`, else `a`): `auth_success` sets the authenticated
flag (Ready); `auth_error` or `error` raises `AuthenticationError`
carrying the server message resolved from `message`/`msg`; any other
action raises `AuthenticationError` for an unexpected response. -/
theorem c4_auth_trichotomy (data : PyDict) :
    (authAction data = .vstr "auth_success" →
       authenticate data = .ok true) ∧
    ((authAction data = .vstr "auth_error" ∨
        authAction data = .vstr "error") →
       authenticate data = .error (.failed (authServerMessage data))) ∧
    (authAction data ≠ .vstr "auth_success" →
     authAction data ≠ .vstr "auth_error" →
     authAction data ≠ .vstr "error" →
       authenticate data = .error (.unexpected (authAction data))) := by
  refine ⟨?_, ?_, ?_⟩
  · intro h
    rw [authenticate]
    rw [if_pos ((pyEqStr_eq_true_iff _ _).mpr h)]
  · intro h
    rcases h with h | h <;> simp [authenticate, h, pyEqStr]
  · intro h1 h2 h3
    rw [authenticate]
    have ha : ¬ pyEqStr (authAction data) "auth_success" = true := by
      rw [pyEqStr_eq_true_iff]
      exact h1
    have hb : ¬ (pyEqStr (authAction data) "auth_error" ||
        pyEqStr (authAction data) "error") = true := by
      simp only [Bool.or_eq_true, pyEqStr_eq_true_iff]
      push_neg
      exact ⟨h2, h3⟩
    rw [if_neg ha, if_neg hb]

/-- Witness for C4: an auth response carrying `auth_success` under the
abbreviated key authenticates. -/
theorem c4_witness : authenticate authSuccessInput = .ok true :=
  (c4_auth_trichotomy authSuccessInput).1 rfl

/-! ## Claim C6 -/

/-- C6: `is_healthy` holds exactly when the transport is present and
connected, the session is authenticated, and — whenever a heartbeat
interval is configured — the time since the last pong is at most twice the
heartbeat interval; it is false in every other case. -/
theorem c6_is_healthy_characterization (st : ClientHealthState) (now : ℚ) :
    is_healthy st now = true ↔
      (∃ c, st.connection = some c ∧ c.is_connected = true) ∧
      st.isAuthenticated = true ∧
      (0 < st.heartbeatInterval →
        now - st.lastPongTime ≤ 2 * st.heartbeatInterval) := by
  cases hc : st.connection with
  | none => simp [is_healthy, hc]
  | some c =>
      simp only [is_healthy, hc]
      split_ifs with h1 h2 h3 h4
      · simp only [Bool.not_eq_true'] at h1
        simp [h1]
      · simp only [Bool.not_eq_true'] at h2
        simp [h2]
      · constructor
        · intro hx
          cases hx
        · rintro ⟨-, -, hle⟩
          exact absurd (hle h3) (not_le.mpr h4)
      · simp only [Bool.not_eq_true', Bool.not_eq_false] at h1 h2
        simp only [true_iff, eq_self_iff_true]
        exact ⟨⟨c, rfl, h1⟩, h2, fun _ => le_of_not_lt h4⟩
      · simp only [Bool.not_eq_true', Bool.not_eq_false] at h1 h2
        simp only [true_iff, eq_self_iff_true]
        exact ⟨⟨c, rfl, h1⟩, h2, fun hpos => absurd hpos h3⟩

/-! ## Claim C2 -/

/-- C2: `Order.from_dict` contradicts the module's own documentation that
"all models support parsing from both abbreviated and full field names":
a frame spelled with verbose keys and a non-falsy price raises
`KeyError('p')` (the guard tests `data.get("p") or data.get("price")` but
the conversion subscripts `data["p"]`), while the equivalent
abbreviated-key frame decodes to the expected record. -/
theorem c2_order_decoder_dual_key_bug :
    Order.fromDict orderVerboseInput = .error (.keyError "p") ∧
    Order.fromDict orderAbbrevInput = .ok
      { order_id := .vstr "O1", symbol := .vstr "AAPL", side := .vstr "NB",
        order_type := .vstr "LO", status := .vstr "New",
        quantity := .vint 100, filled_quantity := .vint 50,
        price := .vdecimal (.vint 26500), average_fill_price := .vnone,
        timestamp := ((1700000000000 : Int) : ℚ) / 1000 } :=
  ⟨rfl, rfl⟩

/-! ## Claim C8 -/

/-- Inversion for `Except` bind. -/
theorem exceptBind_ok {ε α β : Type} {x : Except ε α} {f : α → Except ε β}
    {b : β} (h : x >>= f = .ok b) : ∃ a, x = .ok a ∧ f a = .ok b := by
  cases x with
  | error e => simp [Bind.bind, Except.bind] at h
  | ok a => exact ⟨a, rfl, by simpa [Bind.bind, Except.bind] using h⟩

/-- A successful `Decimal(str(x))` yields an exact decimal. -/
theorem pyDecimalStr_ok {v w : PyVal} (h : pyDecimalStr v = .ok w) :
    w.isExactDecimal = true := by
  cases v <;> simp [pyDecimalStr] at h <;> subst h <;> rfl

/-- Exact decimals are decimal-or-none. -/
theorem isDecimalOrNone_of_isExactDecimal (v : PyVal)
    (h : v.isExactDecimal = true) : v.isDecimalOrNone = true := by
  cases v <;> simp_all [PyVal.isExactDecimal, PyVal.isDecimalOrNone]

/-- A successful optional-price conversion yields a decimal or `None`. -/
theorem orderPriceField_ok {d : PyDict} {k₁ k₂ : String} {w : PyVal}
    (h : orderPriceField d k₁ k₂ = .ok w) : w.isDecimalOrNone = true := by
  rw [orderPriceField] at h
  by_cases hc : truthy (pyOr (pyGet d k₁) (pyGet d k₂)) = true
  · rw [if_pos hc] at h
    obtain ⟨v, hv, hdec⟩ := exceptBind_ok h
    exact isDecimalOrNone_of_isExactDecimal w (pyDecimalStr_ok hdec)
  · rw [if_neg hc] at h
    simp only [pure, Except.pure, Except.ok.injEq] at h
    subst h
    rfl

/-- C8 counterexample: a position frame carrying the binary float `100.0`
as its wire quantity decodes successfully into a record whose `quantity`
field is that binary float — not an exact decimal — refuting the claim for
quantity fields. -/
theorem c8_counterexample_float_quantity :
    Position.fromDict positionFloatQtyInput = .ok
      { symbol := .vstr "AAPL", quantity := .vfloat 100,
        average_price := .vdecimal (.vstr "150.00"),
        market_value := .vdecimal (.vstr "15075.00"),
        cost_basis := .vdecimal (.vstr "15000.00"),
        unrealized_pl := .vdecimal (.vstr "75.00"),
        unrealized_pl_percent := .vdecimal (.vstr "0.5"),
        timestamp := ((1700000000000 : Int) : ℚ) / 1000 } ∧
    (PyVal.vfloat 100).isBinaryFloat = true ∧
    (PyVal.vfloat 100).isExactDecimal = false :=
  ⟨rfl, rfl, rfl⟩

/-- C8 (amended): in every successful decode, the price and
monetary-amount fields of Order, Position and AccountUpdate are exact
decimals (Order's optional prices are decimal-or-none), while the quantity
fields (`Order.quantity`, `Order.filled_quantity`, `Position.quantity`)
are taken verbatim from the wire value — exact only when the wire value
is. -/
theorem c8_amended_decimal_fields (d : PyDict) :
    (∀ o : Order, Order.fromDict d = .ok o →
       o.price.isDecimalOrNone = true ∧
       o.average_fill_price.isDecimalOrNone = true ∧
       o.quantity = pyOr (pyGet d "q") (pyGet d "quantity") ∧
       o.filled_quantity = pyOr (pyGet d "fq")
         (pyGet d "filled_quantity")) ∧
    (∀ p : Position, Position.fromDict d = .ok p →
       p.average_price.isExactDecimal = true ∧
       p.market_value.isExactDecimal = true ∧
       p.cost_basis.isExactDecimal = true ∧
       p.unrealized_pl.isExactDecimal = true ∧
       p.unrealized_pl_percent.isExactDecimal = true ∧
       p.quantity = pyOr (pyGet d "q") (pyGet d "quantity")) ∧
    (∀ a : AccountUpdate, AccountUpdate.fromDict d = .ok a →
       a.cash.isExactDecimal = true ∧
       a.buying_power.isExactDecimal = true ∧
       a.portfolio_value.isExactDecimal = true ∧
       a.equity.isExactDecimal = true) := by
  refine ⟨?_, ?_, ?_⟩
  · intro o h
    rw [Order.fromDict] at h
    obtain ⟨price, hprice, h⟩ := exceptBind_ok h
    obtain ⟨avg, havg, h⟩ := exceptBind_ok h
    obtain ⟨ts, hts, h⟩ := exceptBind_ok h
    simp only [pure, Except.pure, Except.ok.injEq] at h
    subst h
    exact ⟨orderPriceField_ok hprice, orderPriceField_ok havg, rfl, rfl⟩
  · intro p h
    rw [Position.fromDict] at h
    obtain ⟨ap, hap, h⟩ := exceptBind_ok h
    obtain ⟨mv, hmv, h⟩ := exceptBind_ok h
    obtain ⟨cb, hcb, h⟩ := exceptBind_ok h
    obtain ⟨upl, hupl, h⟩ := exceptBind_ok h
    obtain ⟨uplp, huplp, h⟩ := exceptBind_ok h
    obtain ⟨ts, hts, h⟩ := exceptBind_ok h
    simp only [pure, Except.pure, Except.ok.injEq] at h
    subst h
    exact ⟨pyDecimalStr_ok hap, pyDecimalStr_ok hmv, pyDecimalStr_ok hcb,
      pyDecimalStr_ok hupl, pyDecimalStr_ok huplp, rfl⟩
  · intro a h
    rw [AccountUpdate.fromDict] at h
    obtain ⟨c, hc, h⟩ := exceptBind_ok h
    obtain ⟨bp, hbp, h⟩ := exceptBind_ok h
    obtain ⟨pv, hpv, h⟩ := exceptBind_ok h
    obtain ⟨eq, heq, h⟩ := exceptBind_ok h
    obtain ⟨ts, hts, h⟩ := exceptBind_ok h
    simp only [pure, Except.pure, Except.ok.injEq] at h
    subst h
    exact ⟨pyDecimalStr_ok hc, pyDecimalStr_ok hbp, pyDecimalStr_ok hpv,
      pyDecimalStr_ok heq⟩

/-- Witness for the amended C8: on the concrete position frame the
monetary fields come out as exact decimals and the quantity comes out
verbatim. -/
theorem c8_amended_witness :
    ∃ p : Position, Position.fromDict positionFloatQtyInput = .ok p ∧
      p.average_price.isExactDecimal = true ∧
      p.quantity = pyOr (pyGet positionFloatQtyInput "q")
        (pyGet positionFloatQtyInput "quantity") := by
  have h := (c8_amended_decimal_fields positionFloatQtyInput).2.1
    { symbol := .vstr "AAPL", quantity := .vfloat 100,
      average_price := .vdecimal (.vstr "150.00"),
      market_value := .vdecimal (.vstr "15075.00"),
      cost_basis := .vdecimal (.vstr "15000.00"),
      unrealized_pl := .vdecimal (.vstr "75.00"),
      unrealized_pl_percent := .vdecimal (.vstr "0.5"),
      timestamp := ((1700000000000 : Int) : ℚ) / 1000 } rfl
  exact ⟨_, rfl, h.1, h.2.2.2.2.2⟩

/-! ## Claim C10 -/

/-- Every handler in the list is invoked exactly once, in order, with the
event data, and no exception escapes the loop. -/
theorem emitLoop_spec (handlers : List Handler) (data : PyVal) :
    (emitLoop handlers data).1.map (fun i => (i.handlerId, i.arg)) =
      handlers.map (fun h => (h.id, data)) ∧
    (emitLoop handlers data).2 = .ok () := by
  induction handlers with
  | nil => exact ⟨rfl, rfl⟩
  | cons h rest ih =>
      refine ⟨?_, ?_⟩
      · show ((⟨h.id, data, h.raises data⟩ : Invocation) ::
            (emitLoop rest data).1).map (fun i => (i.handlerId, i.arg)) = _
        rw [List.map_cons, ih.1, List.map_cons]
      · show (emitLoop rest data).2 = .ok ()
        exact ih.2

/-- C10: if any registered synchronous handler for an event raises during
dispatch, every handler in the registered list — including all later
ones — is still invoked with the same event data, and the exception does
not propagate out of `_emit`. -/
theorem c10_emit_handler_isolation (tbl : HandlerTable) (event : String)
    (data : PyVal) (handlers : List Handler)
    (hreg : lookupKey tbl event = some handlers)
    (hraise : ∃ h ∈ handlers, h.raises data = true) :
    (clientEmit tbl event data).1.map (fun i => (i.handlerId, i.arg)) =
      handlers.map (fun h => (h.id, data)) ∧
    (clientEmit tbl event data).2 = .ok () := by
  rw [clientEmit, hreg]
  exact emitLoop_spec handlers data

/-- Witness for C10: a raising handler registered before a well-behaved
one; both are invoked with the event data and no exception escapes. -/
theorem c10_witness :
    (clientEmit c10Table "error" (.vstr "boom")).1.map
        (fun i => (i.handlerId, i.arg)) =
      [raisingHandler, okHandler].map (fun h => (h.id, PyVal.vstr "boom")) ∧
    (clientEmit c10Table "error" (.vstr "boom")).2 = .ok () :=
  c10_emit_handler_isolation c10Table "error" (.vstr "boom")
    [raisingHandler, okHandler] rfl
    ⟨raisingHandler, List.mem_cons_self _ _, rfl⟩

end TradingWS
